import Mathlib

/-!
Verification of the sale-commit core of a point-of-sale application.

The program stores money amounts as Python floats (IEEE-754 binary64) and as
SQLite REAL columns, and all arithmetic on them is binary64 arithmetic.  We
embed binary64 values as the exact rationals they denote, and model each
arithmetic operation as the exact rational operation followed by `roundD`,
rounding to 53 significant bits with ties to even — the IEEE-754 default.
`roundD` models the normal, non-overflowing range only; every quantity in
this program is far inside that range (subnormals start below 2^-1022 and
overflow above 2^1023), so the restriction is faithful here.
-/

/-! ## Data model and layout

Definitions come first: the rounding model, the data model, the engine and
UI functions, and the concrete scenario data; all theorems follow.  The
concrete binary64 evaluations among the theorems supply, for each number,
the binade exponent and the rounded significand, checked by `norm_num`.

Embedding of the SQLite tables used by the sale-commit transaction
(`DatabaseManager.init_db`, src/pos.py lines 236-306) and of the in-memory
cart line dictionaries built by `add_to_cart` (lines 4141-4147).  Only the
columns the commit path reads or writes are modelled.  `id` columns are
`INTEGER PRIMARY KEY AUTOINCREMENT`; `next_sale_id` models the sales table's
autoincrement counter. -/

/-! ## Concrete scenario data

`db3` carries the sample product `Water` (price 1.50, i.e. the exact double
`3/2`) with stock 3, matching spec Scenario B.  `dbSample` carries `Water`
(stock 50) and `Soda` (price 2.00, stock 40) with the stocks of the sample
data inserted by `insert_sample_data` (src/pos.py lines 360-368).  `dbW` is a
one-product database used for happy-path runs. -/

/-- Round a rational to the nearest integer, ties to even: the tie rule of
IEEE-754 binary64 arithmetic. -/
def rne (q : ℚ) : ℤ :=
  let n := ⌊q⌋
  let r := q - n
  if r < 1/2 then n
  else if 1/2 < r then n + 1
  else if 2 ∣ n then n else n + 1

/-- Binary64 rounding of a positive rational in the normal range: scale to a
53-bit significand and round to nearest, ties to even. -/
def roundPos (x : ℚ) : ℚ :=
  (rne (x * 2 ^ ((52 : ℤ) - Int.log 2 x)) : ℚ) * 2 ^ (Int.log 2 x - (52 : ℤ))

/-- IEEE-754 binary64 round-to-nearest-even on the exact rational value,
restricted to the normal non-overflowing range (see the file header). -/
def roundD (x : ℚ) : ℚ :=
  if 0 < x then roundPos x
  else if x < 0 then -roundPos (-x)
  else 0

/-- Python float addition: exact sum, rounded to binary64. -/
def pyadd (x y : ℚ) : ℚ := roundD (x + y)

/-- Python float subtraction: exact difference, rounded to binary64. -/
def pysub (x y : ℚ) : ℚ := roundD (x - y)

/-- Python float multiplication: exact product, rounded to binary64. -/
def pymul (x y : ℚ) : ℚ := roundD (x * y)

/-- Python float division: exact quotient, rounded to binary64. -/
def pydiv (x y : ℚ) : ℚ := roundD (x / y)

/-- The integer amount of cents printed by Python's `f"{x:.2f}"` formatting of
a float: the exact value of the double, rounded to two decimal places.  No
binary64 value ties exactly at two decimals ((2k+1)/200 is never a dyadic
rational), so the tie rule never fires for actual doubles. -/
def display2 (x : ℚ) : ℤ := rne (x * 100)

/-- The double produced by `float(f"{x:.2f}")`, and equally by Python's
`round(x, 2)`: the binary64 value nearest the two-decimal rounding of `x`. -/
def py_round2 (x : ℚ) : ℚ := roundD ((display2 x : ℚ) / 100)

structure Product where
  id : ℕ
  name : String
  price : ℚ
  stock : ℤ
deriving Repr, DecidableEq

structure CartItem where
  id : ℕ
  name : String
  price : ℚ
  qty : ℤ
deriving Repr, DecidableEq

structure Sale where
  id : ℕ
  receipt_number : String
  customer_id : Option ℕ
  subtotal : ℚ
  discount : ℚ
  tax : ℚ
  total : ℚ
  paid : ℚ
  change_amount : ℚ
  payment_method : String
  cashier_name : String
deriving Repr, DecidableEq

structure SaleItem where
  sale_id : ℕ
  product_id : ℕ
  quantity : ℤ
  unit_price : ℚ
  total_price : ℚ
deriving Repr, DecidableEq

structure DB where
  products : List Product
  sales : List Sale
  sale_items : List SaleItem
  next_sale_id : ℕ
deriving Repr, DecidableEq

/-- The distinct `ValueError` messages `DataManager.save_sale` can raise
(src/pos.py lines 563-568, 593-605), as a structured type: each constructor's
fields are exactly the data interpolated into the corresponding message. -/
inductive SaleError where
  | notFound (name : String)
  | insufficientStock (name : String) (available requested : ℤ)
  | databaseError
deriving Repr, DecidableEq

/-- Model of `SELECT stock FROM products WHERE id = ?`: first row matching the id
(ids are primary keys, so at most one row matches in a well-formed DB). -/
def findProduct (db : DB) (pid : ℕ) : Option Product :=
  db.products.find? (fun p => p.id == pid)

/-- The stock-validation loop of `save_sale` (src/pos.py lines 560-568): walk
the cart in order; a line whose product id has no row fails with the
not-found error, a line whose quantity exceeds the product's current stock
fails with the insufficient-stock error; the first offending line wins. -/
def checkStock (db : DB) : List CartItem → Option SaleError
  | [] => none
  | it :: rest =>
    match findProduct db it.id with
    | none => some (.notFound it.name)
    | some p =>
      if p.stock < it.qty then some (.insufficientStock it.name p.stock it.qty)
      else checkStock db rest

/-- Model of `UPDATE products SET stock = stock - ? WHERE id = ?` for one cart line
(src/pos.py lines 587-588). -/
def applyItem (ps : List Product) (it : CartItem) : List Product :=
  ps.map (fun p => if p.id == it.id then { p with stock := p.stock - it.qty } else p)

/-- One `sale_items` row for one cart line (src/pos.py lines 580-584):
`total_price = item['price'] * item['qty']` in float arithmetic. -/
def mkItemRow (sid : ℕ) (it : CartItem) : SaleItem :=
  { sale_id := sid, product_id := it.id, quantity := it.qty, unit_price := it.price,
    total_price := pymul it.price (it.qty : ℚ) }

/-- The `sales` row inserted by `save_sale` (src/pos.py lines 570-574): column
order `receipt_number, customer_id, subtotal, discount, tax, total, paid,
change_amount, payment_method, cashier_name`, plus the autoincrement id. -/
def mkSaleRow (sid : ℕ) (receipt : String) (cid : Option ℕ)
    (subtotal discount tax total paid change : ℚ) (pm cn : String) : Sale :=
  { id := sid, receipt_number := receipt, customer_id := cid, subtotal := subtotal,
    discount := discount, tax := tax, total := total, paid := paid,
    change_amount := change, payment_method := pm, cashier_name := cn }

/-- Model of `DataManager.save_sale` (src/pos.py lines 544-605).

The receipt number is built from the wall clock and a random suffix
(`f"R{timestamp}{random_part}"`, lines 546-548); both are environment inputs,
so the generated string is passed in as the `receipt` parameter.  The body:
`change = paid - total` (float, line 550); the stock-validation loop
(`checkStock`) runs before any write, so each of its errors leaves every
table unchanged; the `INSERT INTO sales` violates the `receipt_number TEXT
UNIQUE` constraint when the receipt collides with an existing row, the
resulting `sqlite3.Error` is caught, the transaction rolled back, and a
"Database error" `ValueError` raised (lines 593-597) — modelled as the
collision test before the insert, which is observationally the same as
insert-then-rollback; otherwise one sales row, one sale_items row per cart
line, and one stock decrement per cart line are committed together.
On any error the function raises, so the database value is unchanged; the
in-memory cart is only read, never written. -/
def save_sale (db : DB) (cart : List CartItem) (subtotal discount tax total paid : ℚ)
    (payment_method cashier_name : String) (customer_id : Option ℕ) (receipt : String) :
    Except SaleError (DB × ℕ × String) :=
  let change := pysub paid total
  match checkStock db cart with
  | some e => .error e
  | none =>
    if db.sales.any (fun s => s.receipt_number == receipt) then .error .databaseError
    else
      let sid := db.next_sale_id
      let sale : Sale := mkSaleRow sid receipt customer_id subtotal discount tax total
        paid change payment_method cashier_name
      .ok ({ products := cart.foldl applyItem db.products,
             sales := db.sales ++ [sale],
             sale_items := db.sale_items ++ cart.map (mkItemRow sid),
             next_sale_id := sid + 1 }, sid, receipt)

/-- The possible shapes of the discount entry string as classified by
`ModernPOSApp.parse_discount` (src/pos.py lines 4232-4248): empty, a float
literal followed by `%`, a bare float literal, or text that `float()`
rejects. The rational carried by the first two constructors is the exact
value of the parsed double. -/
inductive DiscountText where
  | empty
  | percentOf (p : ℚ)
  | flatOf (a : ℚ)
  | malformed
deriving Repr, DecidableEq

/-- Model of `ModernPOSApp.parse_discount` (src/pos.py lines 4232-4248): percentage
outside [0,100] or a negative flat amount or malformed text yields 0;
otherwise the percentage branch computes `subtotal * (percentage / 100)` in
float arithmetic and the flat branch returns the parsed amount as is. -/
def parse_discount (t : DiscountText) (subtotal : ℚ) : ℚ :=
  match t with
  | .empty => 0
  | .percentOf p => if p < 0 ∨ 100 < p then 0 else pymul subtotal (pydiv p 100)
  | .flatOf a => if a < 0 then 0 else a
  | .malformed => 0

/-- Model of `sum(item['price'] * item['qty'] for item in self.cart)`
(src/pos.py lines 4224, 4251): left fold of float additions starting at 0. -/
def subtotal_calc (cart : List CartItem) : ℚ :=
  cart.foldl (fun acc it => pyadd acc (pymul it.price (it.qty : ℚ))) 0

/-- Model of `tax_amount = (subtotal - discount_amount) * (self.tax_percent / 100)`
(src/pos.py line 4253), in float arithmetic. -/
def tax_calc (subtotal discount taxPercent : ℚ) : ℚ :=
  pymul (pysub subtotal discount) (pydiv taxPercent 100)

/-- Model of `total = subtotal - discount_amount + tax_amount` (src/pos.py line 4254),
in float arithmetic (left associated). -/
def total_calc (subtotal discount tax : ℚ) : ℚ :=
  pyadd (pysub subtotal discount) tax

/-- Outcome of the `checkout` → `process_payment` → `EnhancedPaymentDialog` →
`complete_sale` → `save_sale` chain, for the run in which the operator
submits the dialog once with a fixed paid amount. -/
inductive CheckoutOutcome where
  | emptyCart
  | insufficientPayment
  | saleFailed (e : SaleError)
  | completed (db : DB) (sale_id : ℕ) (receipt : String)
deriving Repr, DecidableEq

/-- The raw float discount amount as computed inside `update_totals`
(src/pos.py line 4252). -/
def raw_discount (cart : List CartItem) (dtext : DiscountText) : ℚ :=
  parse_discount dtext (subtotal_calc cart)

/-- The raw float tax amount as computed inside `update_totals`
(src/pos.py line 4253). -/
def raw_tax (cart : List CartItem) (dtext : DiscountText) (taxPercent : ℚ) : ℚ :=
  tax_calc (subtotal_calc cart) (raw_discount cart dtext) taxPercent

/-- The raw float total as computed inside `update_totals`
(src/pos.py line 4254). -/
def raw_total (cart : List CartItem) (dtext : DiscountText) (taxPercent : ℚ) : ℚ :=
  total_calc (subtotal_calc cart) (raw_discount cart dtext) (raw_tax cart dtext taxPercent)

/-- The checkout pipeline:
`ModernPOSApp.checkout` (src/pos.py lines 4299-4303) rejects an empty cart
with a notification and never reaches the engine;
`update_totals` (lines 4250-4260) computes the raw float subtotal, discount,
tax and total and renders each with `f"...:.2f"` into the labels;
`process_payment` (lines 4305-4320) parses the four label strings back into
floats — so the engine receives the two-decimal roundings `py_round2` of the
raw values — and opens the payment dialog;
`EnhancedPaymentDialog.process_payment` (lines 961-971) refuses when
`paid < total` (the parsed total) and otherwise returns `(paid, method)`;
`complete_sale` (lines 4322-4332) then calls `DataManager.save_sale` with the
parsed amounts. -/
def checkout_flow (db : DB) (cart : List CartItem) (dtext : DiscountText)
    (taxPercent paid : ℚ) (payment_method cashier_name : String)
    (customer_id : Option ℕ) (receipt : String) : CheckoutOutcome :=
  if cart.isEmpty then .emptyCart
  else if paid < py_round2 (raw_total cart dtext taxPercent) then .insufficientPayment
  else
    match save_sale db cart (py_round2 (subtotal_calc cart))
        (py_round2 (raw_discount cart dtext)) (py_round2 (raw_tax cart dtext taxPercent))
        (py_round2 (raw_total cart dtext taxPercent)) paid payment_method cashier_name
        customer_id receipt with
    | .error e => .saleFailed e
    | .ok (db', sid, rc) => .completed db' sid rc

/-- Total quantity the cart requests of product id `pid` (several cart lines
may reference the same product). -/
def cartQty (cart : List CartItem) (pid : ℕ) : ℤ :=
  ((cart.filter (fun it => pid == it.id)).map (fun it => it.qty)).sum

/-- Net effect of the stock-decrement loop on the products table. -/
def decrementAll (cart : List CartItem) (ps : List Product) : List Product :=
  ps.map (fun p => { p with stock := p.stock - cartQty cart p.id })

/-- Sum of all stock in the products table. -/
def stockSum (ps : List Product) : ℤ := (ps.map (fun p => p.stock)).sum

/-- Sum of all quantities in a cart. -/
def qtySum (cart : List CartItem) : ℤ := (cart.map (fun it => it.qty)).sum

def db3 : DB :=
  { products := [{ id := 1, name := "Water", price := 3/2, stock := 3 }],
    sales := [], sale_items := [], next_sale_id := 1 }

def dbSample : DB :=
  { products := [{ id := 1, name := "Water", price := 3/2, stock := 50 },
      { id := 2, name := "Soda", price := 2, stock := 40 }],
    sales := [], sale_items := [], next_sale_id := 1 }

def dbW : DB :=
  { products := [{ id := 1, name := "Widget", price := 2, stock := 5 }],
    sales := [], sale_items := [], next_sale_id := 1 }

def cartW : List CartItem := [{ id := 1, name := "Widget", price := 2, qty := 1 }]

/-- The Scenario-A cart: `[{price: 1.50, qty: 2}, {price: 2.00, qty: 1}]`. -/
def cartA : List CartItem :=
  [{ id := 1, name := "Water", price := 3/2, qty := 2 },
   { id := 2, name := "Soda", price := 2, qty := 1 }]

/-- Result of the happy-path checkout on `dbW`/`cartW`, no discount, tax 0,
paid 5. -/
def dbWout : DB :=
  { products := [{ id := 1, name := "Widget", price := 2, stock := 4 }],
    sales := [mkSaleRow 1 "R1" none 2 0 0 2 5 3 "Cash" "Admin"],
    sale_items := [{ sale_id := 1, product_id := 1, quantity := 1, unit_price := 2,
                     total_price := 2 }],
    next_sale_id := 2 }

/-- The sale stored by the Scenario-A checkout on `dbSample` with paid 10:
subtotal 5.00, discount 0.50, tax the double nearest 0.23, total the double
nearest 4.72, change their float difference. -/
def saleA : Sale :=
  mkSaleRow 1 "R900" none 5 (1/2) (8286623314361713 / 36028797018963968)
    (5314247560297185 / 1125899906842624) 10 (5944751508129055 / 1125899906842624)
    "Cash" "Admin"

/-- Result of the Scenario-A checkout on `dbSample` with paid 10. -/
def dbA : DB :=
  { products := [{ id := 1, name := "Water", price := 3/2, stock := 48 },
      { id := 2, name := "Soda", price := 2, stock := 39 }],
    sales := [saleA],
    sale_items := [{ sale_id := 1, product_id := 1, quantity := 2, unit_price := 3/2,
                     total_price := 3 },
      { sale_id := 1, product_id := 2, quantity := 1, unit_price := 2, total_price := 2 }],
    next_sale_id := 2 }

/-- Scenario-B cart: one line requesting qty 5 of `Water`, whose persisted
stock in `db3` is 3. -/
def cartB : List CartItem := [{ id := 1, name := "Water", price := 3/2, qty := 5 }]

/-- A cart whose first line references a product id absent from `db3` and
whose second line over-requests `Water`. -/
def cartMix : List CartItem :=
  [{ id := 2, name := "Ghost", price := 1, qty := 1 },
   { id := 1, name := "Water", price := 3/2, qty := 5 }]

/-- A cart whose first line over-requests `Water` and whose second line
references a product id absent from `db3`. -/
def cartMix2 : List CartItem :=
  [{ id := 1, name := "Water", price := 3/2, qty := 5 },
   { id := 2, name := "Ghost", price := 1, qty := 1 }]

/-- Two lines for the same product, each within stock on its own but not
jointly: stock 3, lines of 2 and 2. -/
def cartDup : List CartItem :=
  [{ id := 1, name := "Water", price := 3/2, qty := 2 },
   { id := 1, name := "Water", price := 3/2, qty := 2 }]

/-- A database already holding a sale with receipt number `R11111`. -/
def dbR : DB :=
  { products := [{ id := 1, name := "Widget", price := 2, stock := 5 }],
    sales := [mkSaleRow 1 "R11111" none 0 0 0 0 0 0 "Cash" "Admin"],
    sale_items := [], next_sale_id := 2 }

theorem rne_intCast (n : ℤ) : rne (n : ℚ) = n := by
  simp [rne]

theorem rne_eq_of_lt_half {q : ℚ} {n : ℤ} (h1 : (n : ℚ) ≤ q) (h2 : q < (n : ℚ) + 1/2) :
    rne q = n := by
  have hf : ⌊q⌋ = n := Int.floor_eq_iff.mpr ⟨h1, by linarith⟩
  simp only [rne, hf]
  rw [if_pos (by linarith)]

theorem rne_eq_of_gt_half {q : ℚ} {n : ℤ} (h1 : (n : ℚ) + 1/2 < q) (h2 : q ≤ (n : ℚ) + 1) :
    rne q = n + 1 := by
  rcases eq_or_lt_of_le h2 with he | hl
  · have : q = ((n + 1 : ℤ) : ℚ) := by push_cast; linarith
    rw [this, rne_intCast]
  · have hf : ⌊q⌋ = n := Int.floor_eq_iff.mpr ⟨by linarith, by linarith⟩
    simp only [rne, hf]
    rw [if_neg (by linarith), if_pos (by linarith)]

theorem rne_ge (q : ℚ) : q - 1/2 ≤ (rne q : ℚ) := by
  have h1 : (⌊q⌋ : ℚ) ≤ q := Int.floor_le q
  have h2 : q < ⌊q⌋ + 1 := Int.lt_floor_add_one q
  simp only [rne]
  split_ifs with a b c <;> push_cast <;> linarith

theorem rne_le (q : ℚ) : (rne q : ℚ) ≤ q + 1/2 := by
  have h1 : (⌊q⌋ : ℚ) ≤ q := Int.floor_le q
  have h2 : q < ⌊q⌋ + 1 := Int.lt_floor_add_one q
  simp only [rne]
  split_ifs with a b c <;> push_cast <;> linarith

theorem rne_mono {p q : ℚ} (h : p ≤ q) : rne p ≤ rne q := by
  by_contra hc
  push_neg at hc
  have h1 : (rne q : ℚ) + 1 ≤ (rne p : ℚ) := by exact_mod_cast hc
  have h2 := rne_ge q
  have h3 := rne_le p
  have hpq : p = q := le_antisymm h (by linarith)
  rw [hpq] at hc
  exact lt_irrefl _ hc

theorem roundD_zero : roundD 0 = 0 := by
  simp [roundD]

theorem int_log_eq {x : ℚ} {e : ℤ} (h1 : (2 : ℚ) ^ e ≤ x) (h2 : x < 2 ^ (e + 1)) :
    Int.log 2 x = e := by
  have hx : 0 < x := lt_of_lt_of_le (zpow_pos (by norm_num) e) h1
  have hl : (2 : ℚ) ^ (Int.log 2 x) ≤ x := by
    have := Int.zpow_log_le_self (b := 2) (by norm_num) hx
    simpa using this
  have hu : x < (2 : ℚ) ^ (Int.log 2 x + 1) := by
    have := Int.lt_zpow_succ_log_self (b := 2) (by norm_num) x
    simpa using this
  have a1 : Int.log 2 x < e + 1 :=
    (zpow_lt_zpow_iff_right₀ (by norm_num : (1 : ℚ) < 2)).mp (lt_of_le_of_lt hl h2)
  have a2 : e < Int.log 2 x + 1 :=
    (zpow_lt_zpow_iff_right₀ (by norm_num : (1 : ℚ) < 2)).mp (lt_of_le_of_lt h1 hu)
  omega

theorem roundD_eval {x : ℚ} {e n : ℤ} (h1 : (2 : ℚ) ^ e ≤ x) (h2 : x < 2 ^ (e + 1))
    (hn : rne (x * 2 ^ ((52 : ℤ) - e)) = n) :
    roundD x = (n : ℚ) * 2 ^ (e - (52 : ℤ)) := by
  have hx : 0 < x := lt_of_lt_of_le (zpow_pos (by norm_num) e) h1
  rw [roundD, if_pos hx, roundPos, int_log_eq h1 h2, hn]

/-- Rounding up: the scaled significand lies strictly between `n - 1/2` and `n`. -/
theorem roundD_eval_up {x : ℚ} {e n : ℤ} (h1 : (2 : ℚ) ^ e ≤ x) (h2 : x < 2 ^ (e + 1))
    (h3 : (n : ℚ) - 1/2 < x * 2 ^ ((52 : ℤ) - e)) (h4 : x * 2 ^ ((52 : ℤ) - e) ≤ (n : ℚ)) :
    roundD x = (n : ℚ) * 2 ^ (e - (52 : ℤ)) := by
  refine roundD_eval h1 h2 ?_
  have : rne (x * 2 ^ ((52 : ℤ) - e)) = (n - 1) + 1 :=
    rne_eq_of_gt_half (n := n - 1) (by push_cast; linarith) (by push_cast; linarith)
  omega

/-- Rounding down: the scaled significand lies in `[n, n + 1/2)`. -/
theorem roundD_eval_down {x : ℚ} {e n : ℤ} (h1 : (2 : ℚ) ^ e ≤ x) (h2 : x < 2 ^ (e + 1))
    (h3 : (n : ℚ) ≤ x * 2 ^ ((52 : ℤ) - e)) (h4 : x * 2 ^ ((52 : ℤ) - e) < (n : ℚ) + 1/2) :
    roundD x = (n : ℚ) * 2 ^ (e - (52 : ℤ)) :=
  roundD_eval h1 h2 (rne_eq_of_lt_half h3 h4)

/-- A value already representable in binary64 is left unchanged. -/
theorem roundD_fix {x : ℚ} {e n : ℤ} (h1 : (2 : ℚ) ^ e ≤ x) (h2 : x < 2 ^ (e + 1))
    (h3 : x * 2 ^ ((52 : ℤ) - e) = (n : ℚ)) : roundD x = x := by
  have h := roundD_eval (n := n) h1 h2 (by rw [h3]; exact rne_intCast n)
  rw [h, ← h3, mul_assoc, ← zpow_add₀ (by norm_num : (2 : ℚ) ≠ 0),
    show (52 : ℤ) - e + (e - 52) = 0 by ring, zpow_zero, mul_one]

theorem roundD_neg (x : ℚ) : roundD (-x) = -roundD x := by
  rcases lt_trichotomy x 0 with h | h | h
  · rw [roundD, if_pos (by linarith), roundD, if_neg (by linarith), if_pos h, neg_neg]
  · simp [h, roundD_zero]
  · rw [roundD, if_neg (by linarith), if_pos (by linarith), neg_neg, roundD, if_pos h]

theorem roundPos_lb {x : ℚ} (hx : 0 < x) : (2 : ℚ) ^ (Int.log 2 x) ≤ roundPos x := by
  have hle : (2 : ℚ) ^ (Int.log 2 x) ≤ x := by
    have := Int.zpow_log_le_self (b := 2) (by norm_num) hx
    simpa using this
  have hcpos : (0 : ℚ) < 2 ^ ((52 : ℤ) - Int.log 2 x) := zpow_pos (by norm_num) _
  have hsplit : (2 : ℚ) ^ (52 : ℤ) = 2 ^ (Int.log 2 x) * 2 ^ ((52 : ℤ) - Int.log 2 x) := by
    rw [← zpow_add₀ (by norm_num : (2 : ℚ) ≠ 0)]
    congr 1
    ring
  have hscaled : (4503599627370496 : ℚ) ≤ x * 2 ^ ((52 : ℤ) - Int.log 2 x) := by
    have h0 : ((2 : ℚ) ^ (52 : ℤ)) = (4503599627370496 : ℚ) := by norm_num
    rw [← h0, hsplit]
    exact mul_le_mul_of_nonneg_right hle hcpos.le
  have hrge := rne_ge (x * 2 ^ ((52 : ℤ) - Int.log 2 x))
  have h52 : ((4503599627370495 : ℤ) : ℚ) < (rne (x * 2 ^ ((52 : ℤ) - Int.log 2 x)) : ℚ) := by
    push_cast
    linarith
  have hint : (4503599627370496 : ℤ) ≤ rne (x * 2 ^ ((52 : ℤ) - Int.log 2 x)) := by
    have : (4503599627370495 : ℤ) < rne (x * 2 ^ ((52 : ℤ) - Int.log 2 x)) := by
      exact_mod_cast h52
    omega
  have hppos : (0 : ℚ) < 2 ^ (Int.log 2 x - (52 : ℤ)) := zpow_pos (by norm_num) _
  calc (2 : ℚ) ^ (Int.log 2 x)
      = (4503599627370496 : ℚ) * 2 ^ (Int.log 2 x - (52 : ℤ)) := by
        rw [show (4503599627370496 : ℚ) = (2 : ℚ) ^ (52 : ℤ) by norm_num,
          ← zpow_add₀ (by norm_num : (2 : ℚ) ≠ 0)]
        congr 1
        ring
    _ ≤ (rne (x * 2 ^ ((52 : ℤ) - Int.log 2 x)) : ℚ) * 2 ^ (Int.log 2 x - (52 : ℤ)) := by
        refine mul_le_mul_of_nonneg_right ?_ hppos.le
        exact_mod_cast hint

theorem roundPos_ub {x : ℚ} (_hx : 0 < x) : roundPos x ≤ (2 : ℚ) ^ (Int.log 2 x + 1) := by
  have hlt : x < (2 : ℚ) ^ (Int.log 2 x + 1) := by
    have := Int.lt_zpow_succ_log_self (b := 2) (by norm_num) x
    simpa using this
  have hcpos : (0 : ℚ) < 2 ^ ((52 : ℤ) - Int.log 2 x) := zpow_pos (by norm_num) _
  have hsplit : (2 : ℚ) ^ (53 : ℤ) = 2 ^ (Int.log 2 x + 1) * 2 ^ ((52 : ℤ) - Int.log 2 x) := by
    rw [← zpow_add₀ (by norm_num : (2 : ℚ) ≠ 0)]
    congr 1
    ring
  have hscaled : x * 2 ^ ((52 : ℤ) - Int.log 2 x) < (9007199254740992 : ℚ) := by
    have h0 : ((2 : ℚ) ^ (53 : ℤ)) = (9007199254740992 : ℚ) := by norm_num
    rw [← h0, hsplit]
    exact mul_lt_mul_of_pos_right hlt hcpos
  have hrle := rne_le (x * 2 ^ ((52 : ℤ) - Int.log 2 x))
  have h53 : (rne (x * 2 ^ ((52 : ℤ) - Int.log 2 x)) : ℚ) < ((9007199254740993 : ℤ) : ℚ) := by
    push_cast
    linarith
  have hint : rne (x * 2 ^ ((52 : ℤ) - Int.log 2 x)) ≤ (9007199254740992 : ℤ) := by
    have : rne (x * 2 ^ ((52 : ℤ) - Int.log 2 x)) < (9007199254740993 : ℤ) := by
      exact_mod_cast h53
    omega
  have hppos : (0 : ℚ) < 2 ^ (Int.log 2 x - (52 : ℤ)) := zpow_pos (by norm_num) _
  calc roundPos x
      ≤ ((9007199254740992 : ℤ) : ℚ) * 2 ^ (Int.log 2 x - (52 : ℤ)) := by
        refine mul_le_mul_of_nonneg_right ?_ hppos.le
        exact_mod_cast hint
    _ = (2 : ℚ) ^ (Int.log 2 x + 1) := by
        push_cast
        rw [show (9007199254740992 : ℚ) = (2 : ℚ) ^ (53 : ℤ) by norm_num,
          ← zpow_add₀ (by norm_num : (2 : ℚ) ≠ 0)]
        congr 1
        ring

theorem roundPos_pos {x : ℚ} (hx : 0 < x) : 0 < roundPos x :=
  lt_of_lt_of_le (zpow_pos (by norm_num) _) (roundPos_lb hx)

theorem roundD_nonneg {x : ℚ} (hx : 0 ≤ x) : 0 ≤ roundD x := by
  rcases eq_or_lt_of_le hx with h | h
  · rw [← h, roundD_zero]
  · rw [roundD, if_pos h]
    exact (roundPos_pos h).le

theorem roundPos_mono {x y : ℚ} (hx : 0 < x) (hxy : x ≤ y) : roundPos x ≤ roundPos y := by
  have hy : 0 < y := lt_of_lt_of_le hx hxy
  have hlog : Int.log 2 x ≤ Int.log 2 y := Int.log_mono_right hx hxy
  rcases eq_or_lt_of_le hlog with he | hl
  · rw [roundPos, roundPos, ← he]
    have hcpos : (0 : ℚ) < 2 ^ ((52 : ℤ) - Int.log 2 x) := zpow_pos (by norm_num) _
    have hm : x * 2 ^ ((52 : ℤ) - Int.log 2 x) ≤ y * 2 ^ ((52 : ℤ) - Int.log 2 x) :=
      mul_le_mul_of_nonneg_right hxy hcpos.le
    have := rne_mono hm
    exact mul_le_mul_of_nonneg_right (by exact_mod_cast this)
      (zpow_pos (by norm_num : (0:ℚ) < 2) _).le
  · calc roundPos x
        ≤ (2 : ℚ) ^ (Int.log 2 x + 1) := roundPos_ub hx
      _ ≤ (2 : ℚ) ^ (Int.log 2 y) := zpow_le_zpow_right₀ (by norm_num) (by omega)
      _ ≤ roundPos y := roundPos_lb hy

theorem roundD_mono {x y : ℚ} (h : x ≤ y) : roundD x ≤ roundD y := by
  rcases lt_trichotomy x 0 with hx | hx | hx
  · rcases lt_trichotomy y 0 with hy | hy | hy
    · rw [roundD, if_neg (by linarith), if_pos hx, roundD, if_neg (by linarith), if_pos hy]
      have := roundPos_mono (by linarith : (0 : ℚ) < -y) (by linarith : -y ≤ -x)
      linarith
    · rw [hy, roundD_zero, roundD, if_neg (by linarith), if_pos hx]
      have := roundPos_pos (by linarith : (0 : ℚ) < -x)
      linarith
    · have h1 : roundD x ≤ 0 := by
        rw [roundD, if_neg (by linarith), if_pos hx]
        have := roundPos_pos (by linarith : (0 : ℚ) < -x)
        linarith
      exact le_trans h1 (roundD_nonneg hy.le)
  · rw [hx, roundD_zero]
    exact roundD_nonneg (hx ▸ h)
  · rw [roundD, if_pos hx, roundD, if_pos (lt_of_lt_of_le hx h)]
    exact roundPos_mono hx h

theorem roundD_one : roundD 1 = 1 := by
  refine roundD_fix (e := 0) (n := 2 ^ 52) ?_ ?_ ?_ <;> norm_num

theorem cartQty_nil (pid : ℕ) : cartQty [] pid = 0 := rfl

theorem cartQty_cons (it : CartItem) (rest : List CartItem) (pid : ℕ) :
    cartQty (it :: rest) pid = (if pid == it.id then it.qty else 0) + cartQty rest pid := by
  by_cases h : pid == it.id <;> simp [cartQty, List.filter_cons, h]

theorem foldl_applyItem (cart : List CartItem) :
    ∀ ps : List Product, cart.foldl applyItem ps = decrementAll cart ps := by
  induction cart with
  | nil =>
    intro ps
    simp [decrementAll, cartQty_nil]
  | cons it rest ih =>
    intro ps
    rw [List.foldl_cons, ih]
    simp only [decrementAll, applyItem, List.map_map]
    refine List.map_congr_left ?_
    intro p _
    simp only [Function.comp]
    by_cases h : p.id == it.id
    · simp only [h, if_pos, cartQty_cons]
      have hid : p.id = it.id := eq_of_beq h
      simp [hid]
      ring
    · simp only [h, if_neg, cartQty_cons]
      simp only [Bool.not_eq_true] at h
      simp [h]

theorem sum_map_add_split {α : Type} (l : List α) (f g : α → ℤ) :
    (l.map (fun a => f a + g a)).sum = (l.map f).sum + (l.map g).sum := by
  induction l with
  | nil => simp
  | cons a t ih => simp [ih]; ring

theorem sum_map_sub_split {α : Type} (l : List α) (f g : α → ℤ) :
    (l.map (fun a => f a - g a)).sum = (l.map f).sum - (l.map g).sum := by
  induction l with
  | nil => simp
  | cons a t ih => simp [ih]; ring

theorem sum_ite_unique (i : ℕ) (c : ℤ) :
    ∀ ps : List Product, (ps.map (fun p => p.id)).Nodup → (∃ p ∈ ps, p.id = i) →
      (ps.map (fun p => if i == p.id then c else 0)).sum = c := by
  intro ps
  induction ps with
  | nil => simp
  | cons hd t ih =>
    intro hnd hex
    rw [List.map_cons] at hnd
    have hnd' := List.nodup_cons.mp hnd
    by_cases h : i = hd.id
    · have hzero : (t.map (fun p => if i == p.id then c else 0)).sum = 0 := by
        apply List.sum_eq_zero
        intro x hx
        rcases List.mem_map.mp hx with ⟨p, hp, hpx⟩
        have hne : ¬ (i == p.id) = true := by
          intro hb
          have hpi : hd.id = p.id := h.symm.trans (eq_of_beq hb)
          exact hnd'.1 (hpi ▸ List.mem_map_of_mem (fun q => q.id) hp)
        rw [if_neg hne] at hpx
        omega
      have hb : (i == hd.id) = true := beq_iff_eq.mpr h
      rw [List.map_cons, List.sum_cons, if_pos hb, hzero, add_zero]
    · have hex' : ∃ p ∈ t, p.id = i := by
        rcases hex with ⟨p, hp, hpi⟩
        rcases List.mem_cons.mp hp with rfl | hpt
        · exact absurd hpi.symm h
        · exact ⟨p, hpt, hpi⟩
      have hb : ¬ (i == hd.id) = true := fun hb => h (eq_of_beq hb)
      rw [List.map_cons, List.sum_cons, if_neg hb, ih hnd'.2 hex', zero_add]

theorem sum_cartQty (cart : List CartItem) (ps : List Product)
    (hnd : (ps.map (fun p => p.id)).Nodup)
    (hfound : ∀ it ∈ cart, ∃ p ∈ ps, p.id = it.id) :
    (ps.map (fun p => cartQty cart p.id)).sum = qtySum cart := by
  induction cart with
  | nil => simp [cartQty_nil, qtySum, List.sum_eq_zero]
  | cons it rest ih =>
    have h1 : (ps.map (fun p => cartQty (it :: rest) p.id)).sum
        = (ps.map (fun p => (if p.id == it.id then it.qty else 0) + cartQty rest p.id)).sum := by
      refine congrArg _ (List.map_congr_left ?_)
      intro p _
      exact cartQty_cons it rest p.id
    rw [h1, sum_map_add_split]
    have h2 : (ps.map (fun p => if p.id == it.id then it.qty else 0)).sum = it.qty := by
      have : (ps.map (fun p => if p.id == it.id then it.qty else 0))
          = (ps.map (fun p => if it.id == p.id then it.qty else 0)) := by
        refine List.map_congr_left ?_
        intro p _
        by_cases h : p.id = it.id
        · simp [h]
        · have hne : ¬ it.id = p.id := fun hh => h hh.symm
          simp [h, hne]
      rw [this]
      exact sum_ite_unique it.id it.qty ps hnd
        (by rcases hfound it (List.mem_cons_self it rest) with ⟨p, hp, hpi⟩; exact ⟨p, hp, hpi⟩)
    rw [h2, ih (fun jt hjt => hfound jt (List.mem_cons_of_mem it hjt))]
    simp [qtySum]

theorem checkStock_none_iff (db : DB) :
    ∀ cart : List CartItem, checkStock db cart = none ↔
      ∀ it ∈ cart, ∃ p, findProduct db it.id = some p ∧ it.qty ≤ p.stock := by
  intro cart
  induction cart with
  | nil => simp [checkStock]
  | cons it rest ih =>
    cases hp : findProduct db it.id with
    | none =>
      simp only [checkStock, hp]
      constructor
      · intro h
        cases h
      · intro h
        rcases h it (List.mem_cons_self it rest) with ⟨p, hpp, _⟩
        rw [hp] at hpp
        cases hpp
    | some p =>
      by_cases hq : p.stock < it.qty
      · simp only [checkStock, hp, if_pos hq]
        constructor
        · intro h
          cases h
        · intro h
          rcases h it (List.mem_cons_self it rest) with ⟨p', hpp, hle⟩
          rw [hp] at hpp
          cases hpp
          omega
      · simp only [checkStock, hp, if_neg hq, ih]
        constructor
        · intro h jt hjt
          rcases List.mem_cons.mp hjt with rfl | hmem
          · exact ⟨p, hp, by omega⟩
          · exact h jt hmem
        · intro h jt hjt
          exact h jt (List.mem_cons_of_mem it hjt)

theorem checkStock_cons_ok (db : DB) (it : CartItem) (rest : List CartItem) (p : Product)
    (hp : findProduct db it.id = some p) (hle : it.qty ≤ p.stock) :
    checkStock db (it :: rest) = checkStock db rest := by
  simp [checkStock, hp, not_lt.mpr hle]

theorem find?_id_self (p : Product) :
    ∀ ps : List Product, (ps.map (fun q => q.id)).Nodup → p ∈ ps →
      ps.find? (fun q => q.id == p.id) = some p := by
  intro ps
  induction ps with
  | nil => simp
  | cons hd t ih =>
    intro hnd hmem
    rw [List.map_cons] at hnd
    have hnd' := List.nodup_cons.mp hnd
    rcases List.mem_cons.mp hmem with rfl | hmem'
    · simp [List.find?]
    · have hne : (hd.id == p.id) = false := by
        rw [beq_eq_false_iff_ne]
        intro heq
        exact hnd'.1 (heq ▸ List.mem_map_of_mem (fun q => q.id) hmem')
      simp only [List.find?, hne]
      exact ih hnd'.2 hmem'

theorem findProduct_mem {db : DB} {pid : ℕ} {p : Product}
    (h : findProduct db pid = some p) : p ∈ db.products ∧ p.id = pid := by
  unfold findProduct at h
  constructor
  · exact List.mem_of_find?_eq_some h
  · have hb := List.find?_some (p := fun q : Product => q.id == pid) h
    exact eq_of_beq hb

theorem save_sale_error_of_checkStock {db : DB} {cart : List CartItem}
    {s d t tot paid : ℚ} {pm cn : String} {cid : Option ℕ} {r : String} {e : SaleError}
    (hcs : checkStock db cart = some e) :
    save_sale db cart s d t tot paid pm cn cid r = .error e := by
  simp [save_sale, hcs]

theorem save_sale_ok_inv {db : DB} {cart : List CartItem} {s d t tot paid : ℚ}
    {pm cn : String} {cid : Option ℕ} {r : String} {db' : DB} {sid : ℕ} {rc : String}
    (h : save_sale db cart s d t tot paid pm cn cid r = .ok (db', sid, rc)) :
    checkStock db cart = none ∧
    db.sales.any (fun sl => sl.receipt_number == r) = false ∧
    sid = db.next_sale_id ∧ rc = r ∧
    db' = { products := decrementAll cart db.products,
            sales := db.sales ++ [mkSaleRow db.next_sale_id r cid s d t tot paid
              (pysub paid tot) pm cn],
            sale_items := db.sale_items ++ cart.map (mkItemRow db.next_sale_id),
            next_sale_id := db.next_sale_id + 1 } := by
  cases hcs : checkStock db cart with
  | some e =>
    rw [save_sale_error_of_checkStock hcs] at h
    cases h
  | none =>
    simp only [save_sale, hcs] at h
    by_cases hany : db.sales.any (fun sl => sl.receipt_number == r) = true
    · rw [if_pos hany] at h
      cases h
    · rw [if_neg hany] at h
      simp only [Except.ok.injEq, Prod.mk.injEq] at h
      obtain ⟨hdb, hsid, hrc⟩ := h
      refine ⟨rfl, by simpa using hany, hsid.symm, hrc.symm, ?_⟩
      rw [← hdb, foldl_applyItem]

theorem checkStock_first_over (db : DB) :
    ∀ cart : List CartItem,
      (∀ it ∈ cart, (findProduct db it.id).isSome) →
      (∃ it ∈ cart, ∃ p, findProduct db it.id = some p ∧ p.stock < it.qty) →
      ∃ it ∈ cart, ∃ p, findProduct db it.id = some p ∧ p.stock < it.qty ∧
        checkStock db cart = some (.insufficientStock it.name p.stock it.qty) := by
  intro cart
  induction cart with
  | nil =>
    intro _ hover
    rcases hover with ⟨it, hmem, _⟩
    cases hmem
  | cons it rest ih =>
    intro hfound hover
    cases hp : findProduct db it.id with
    | none =>
      have := hfound it (List.mem_cons_self it rest)
      rw [hp] at this
      cases this
    | some p =>
      by_cases hq : p.stock < it.qty
      · exact ⟨it, List.mem_cons_self it rest, p, hp, hq, by simp [checkStock, hp, hq]⟩
      · have hover' : ∃ jt ∈ rest, ∃ q, findProduct db jt.id = some q ∧ q.stock < jt.qty := by
          rcases hover with ⟨jt, hjt, q, hq1, hq2⟩
          rcases List.mem_cons.mp hjt with rfl | hmem
          · rw [hp] at hq1
            cases hq1
            omega
          · exact ⟨jt, hmem, q, hq1, hq2⟩
        rcases ih (fun jt hjt => hfound jt (List.mem_cons_of_mem it hjt)) hover' with
          ⟨jt, hjt, q, h1, h2, h3⟩
        exact ⟨jt, List.mem_cons_of_mem it hjt, q, h1, h2, by
          rwa [checkStock_cons_ok db it rest p hp (not_lt.mp hq)]⟩

theorem checkStock_missing_after_ok (db : DB) (it : CartItem) (post : List CartItem) :
    ∀ pre : List CartItem,
      (∀ jt ∈ pre, ∃ p, findProduct db jt.id = some p ∧ jt.qty ≤ p.stock) →
      findProduct db it.id = none →
      checkStock db (pre ++ it :: post) = some (.notFound it.name) := by
  intro pre
  induction pre with
  | nil =>
    intro _ hmiss
    simp [checkStock, hmiss]
  | cons jt rest ih =>
    intro hpre hmiss
    rcases hpre jt (List.mem_cons_self jt rest) with ⟨p, hp, hle⟩
    rw [List.cons_append, checkStock_cons_ok db jt _ p hp hle]
    exact ih (fun kt hkt => hpre kt (List.mem_cons_of_mem jt hkt)) hmiss

theorem save_sale_collision {db : DB} {cart : List CartItem} {s d t tot paid : ℚ}
    {pm cn : String} {cid : Option ℕ} {r : String}
    (hcs : checkStock db cart = none) (hcol : ∃ sl ∈ db.sales, sl.receipt_number = r) :
    save_sale db cart s d t tot paid pm cn cid r = .error .databaseError := by
  simp only [save_sale, hcs]
  rcases hcol with ⟨sl, hmem, heq⟩
  have hany : (db.sales.any fun sl => sl.receipt_number == r) = true :=
    List.any_eq_true.mpr ⟨sl, hmem, beq_iff_eq.mpr heq⟩
  rw [if_pos hany]

theorem roundD_two : roundD 2 = 2 := by
  refine roundD_fix (e := 1) (n := 2 ^ 52) ?_ ?_ ?_ <;> norm_num

theorem roundD_three : roundD 3 = 3 := by
  refine roundD_fix (e := 1) (n := 3 * 2 ^ 51) ?_ ?_ ?_ <;> norm_num

theorem roundD_five : roundD 5 = 5 := by
  refine roundD_fix (e := 2) (n := 5 * 2 ^ 50) ?_ ?_ ?_ <;> norm_num

theorem roundD_half : roundD (1/2) = 1/2 := by
  refine roundD_fix (e := -1) (n := 2 ^ 52) ?_ ?_ ?_ <;> norm_num

theorem roundD_nine_halves : roundD (9/2) = 9/2 := by
  refine roundD_fix (e := 2) (n := 9 * 2 ^ 49) ?_ ?_ ?_ <;> norm_num

/-- Dividing 10 by 100 in binary64 gives the double usually printed `0.1`. -/
theorem pydiv_10_100 : pydiv 10 100 = 3602879701896397 / 36028797018963968 := by
  have h : (10 : ℚ) / 100 = 1/10 := by norm_num
  rw [pydiv, h, roundD_eval_up (e := -4) (n := 7205759403792794)] <;> norm_num

/-- Multiplying 5 by the double `0.1` in binary64 gives exactly `1/2`. -/
theorem pymul_5_tenth : pymul 5 (3602879701896397 / 36028797018963968) = 1/2 := by
  rw [pymul, roundD_eval_down (e := -1) (n := 4503599627370496)] <;> norm_num

/-- Dividing 5 by 100 in binary64 gives the double usually printed `0.05`. -/
theorem pydiv_5_100 : pydiv 5 100 = 3602879701896397 / 72057594037927936 := by
  have h : (5 : ℚ) / 100 = 1/20 := by norm_num
  rw [pydiv, h, roundD_eval_up (e := -5) (n := 7205759403792794)] <;> norm_num

/-- Multiplying 4.5 by the double `0.05`: the exact product rounds
down to the double just above `0.225`. -/
theorem pymul_92_005 :
    pymul (9/2) (3602879701896397 / 72057594037927936)
      = 8106479329266893 / 36028797018963968 := by
  rw [pymul, roundD_eval_down (e := -3) (n := 8106479329266893)] <;> norm_num

/-- Adding 4.5 and the raw tax in binary64: the exact sum is just below `4.725` and rounds
to the double just below it. -/
theorem pyadd_92_tax :
    pyadd (9/2) (8106479329266893 / 36028797018963968)
      = 5319877059831398 / 1125899906842624 := by
  rw [pyadd, roundD_eval_down (e := 2) (n := 5319877059831398)] <;> norm_num

/-- The raw Scenario-A total formats as `"4.72"`: its exact value is a hair
below `472.5` cents. -/
theorem display2_totA : display2 (5319877059831398 / 1125899906842624) = 472 := by
  rw [display2, rne_eq_of_lt_half (n := 472)] <;> norm_num

/-- Parsing `"4.72"` back: the double nearest `4.72`. -/
theorem py_round2_totA :
    py_round2 (5319877059831398 / 1125899906842624)
      = 5314247560297185 / 1125899906842624 := by
  rw [py_round2, display2_totA]
  rw [show ((472 : ℤ) : ℚ) / 100 = 118/25 by norm_num,
    roundD_eval_down (e := 2) (n := 5314247560297185)] <;> norm_num

/-- The raw Scenario-A tax formats as `"0.23"`: its exact value is a hair
above `22.5` cents, so it rounds up. -/
theorem display2_taxA : display2 (8106479329266893 / 36028797018963968) = 23 := by
  rw [display2, show (23 : ℤ) = 22 + 1 from rfl, rne_eq_of_gt_half (n := 22)] <;> norm_num

/-- Parsing `"0.23"` back: the double nearest `0.23`. -/
theorem py_round2_taxA :
    py_round2 (8106479329266893 / 36028797018963968)
      = 8286623314361713 / 36028797018963968 := by
  rw [py_round2, display2_taxA]
  rw [show ((23 : ℤ) : ℚ) / 100 = 23/100 by norm_num,
    roundD_eval_up (e := -3) (n := 8286623314361713)] <;> norm_num

theorem display2_five : display2 5 = 500 := by
  rw [display2, show (5 : ℚ) * 100 = ((500 : ℤ) : ℚ) by norm_num, rne_intCast]

theorem py_round2_five : py_round2 5 = 5 := by
  rw [py_round2, display2_five, show ((500 : ℤ) : ℚ) / 100 = 5 by norm_num, roundD_five]

theorem display2_half : display2 (1/2) = 50 := by
  rw [display2, show (1/2 : ℚ) * 100 = ((50 : ℤ) : ℚ) by norm_num, rne_intCast]

theorem py_round2_half : py_round2 (1/2) = 1/2 := by
  rw [py_round2, display2_half, show ((50 : ℤ) : ℚ) / 100 = 1/2 by norm_num, roundD_half]

theorem display2_two : display2 2 = 200 := by
  rw [display2, show (2 : ℚ) * 100 = ((200 : ℤ) : ℚ) by norm_num, rne_intCast]

theorem py_round2_two : py_round2 2 = 2 := by
  rw [py_round2, display2_two, show ((200 : ℤ) : ℚ) / 100 = 2 by norm_num, roundD_two]

/-- Adding 4.5 and the stored tax in binary64: just above `4.73`, rounds to the
double nearest `4.73`. -/
theorem pyadd_92_taxstored :
    pyadd (9/2) (8286623314361713 / 36028797018963968)
      = 5325506559365612 / 1125899906842624 := by
  rw [pyadd, roundD_eval_up (e := 2) (n := 5325506559365612)] <;> norm_num

theorem display2_recompA : display2 (5325506559365612 / 1125899906842624) = 473 := by
  rw [display2, rne_eq_of_lt_half (n := 473)] <;> norm_num

/-- Rounding the recomputed total to two decimals gives the double nearest `4.73` — which is
that same double again. -/
theorem py_round2_recompA :
    py_round2 (5325506559365612 / 1125899906842624)
      = 5325506559365612 / 1125899906842624 := by
  rw [py_round2, display2_recompA]
  rw [show ((473 : ℤ) : ℚ) / 100 = 473/100 by norm_num,
    roundD_eval_up (e := 2) (n := 5325506559365612)] <;> norm_num

/-- Subtracting the stored total from 10 in binary64 is exact (same binade grid). -/
theorem pysub_10_totA :
    pysub 10 (5314247560297185 / 1125899906842624)
      = 5944751508129055 / 1125899906842624 := by
  rw [pysub, show (10 : ℚ) - 5314247560297185 / 1125899906842624
      = 5944751508129055 / 1125899906842624 by norm_num]
  refine roundD_fix (e := 2) (n := 5944751508129055) ?_ ?_ ?_ <;> norm_num

theorem pysub_5_half : pysub 5 (1/2) = 9/2 := by
  rw [pysub, show (5 : ℚ) - 1/2 = 9/2 by norm_num, roundD_nine_halves]

theorem pymul_32_2 : pymul (3/2) 2 = 3 := by
  rw [pymul, show (3/2 : ℚ) * 2 = 3 by norm_num, roundD_three]

theorem pymul_2_1 : pymul 2 1 = 2 := by
  rw [pymul, show (2 : ℚ) * 1 = 2 by norm_num, roundD_two]

theorem pyadd_0_3 : pyadd 0 3 = 3 := by
  rw [pyadd, show (0 : ℚ) + 3 = 3 by norm_num, roundD_three]

theorem pyadd_3_2 : pyadd 3 2 = 5 := by
  rw [pyadd, show (3 : ℚ) + 2 = 5 by norm_num, roundD_five]

theorem pyadd_0_2 : pyadd 0 2 = 2 := by
  rw [pyadd, show (0 : ℚ) + 2 = 2 by norm_num, roundD_two]

theorem pysub_2_0 : pysub 2 0 = 2 := by
  rw [pysub, show (2 : ℚ) - 0 = 2 by norm_num, roundD_two]

theorem pysub_5_2 : pysub 5 2 = 3 := by
  rw [pysub, show (5 : ℚ) - 2 = 3 by norm_num, roundD_three]

theorem pysub_0_0 : pysub 0 0 = 0 := by
  rw [pysub, show (0 : ℚ) - 0 = 0 by norm_num, roundD_zero]

theorem pydiv_0_100 : pydiv 0 100 = 0 := by
  rw [pydiv, show (0 : ℚ) / 100 = 0 by norm_num, roundD_zero]

theorem pymul_2_0 : pymul 2 0 = 0 := by
  rw [pymul, show (2 : ℚ) * 0 = 0 by norm_num, roundD_zero]

theorem pyadd_2_0 : pyadd 2 0 = 2 := by
  rw [pyadd, show (2 : ℚ) + 0 = 2 by norm_num, roundD_two]

theorem roundD_neg_five : roundD (-5) = -5 := by
  rw [show (-5 : ℚ) = -(5 : ℚ) by norm_num, roundD_neg, roundD_five]

theorem pysub_5_10 : pysub 5 10 = -5 := by
  rw [pysub, show (5 : ℚ) - 10 = -5 by norm_num, roundD_neg_five]

theorem pymul_neg5_0 : pymul (-5) 0 = 0 := by
  rw [pymul, show (-5 : ℚ) * 0 = 0 by norm_num, roundD_zero]

theorem pyadd_neg5_0 : pyadd (-5) 0 = -5 := by
  rw [pyadd, show (-5 : ℚ) + 0 = -5 by norm_num, roundD_neg_five]

theorem display2_zero : display2 0 = 0 := by
  rw [display2, show (0 : ℚ) * 100 = ((0 : ℤ) : ℚ) by norm_num, rne_intCast]

theorem py_round2_zero : py_round2 0 = 0 := by
  rw [py_round2, display2_zero, show ((0 : ℤ) : ℚ) / 100 = 0 by norm_num, roundD_zero]

theorem cartQty_eq_zero {cart : List CartItem} {i : ℕ} (h : ∀ it ∈ cart, i ≠ it.id) :
    cartQty cart i = 0 := by
  have : cart.filter (fun it => i == it.id) = [] := by
    rw [List.filter_eq_nil_iff]
    intro it hit
    simpa using h it hit
  rw [cartQty, this]
  rfl

theorem cartQty_of_nodup :
    ∀ cart : List CartItem, (cart.map (fun it => it.id)).Nodup →
      ∀ it ∈ cart, cartQty cart it.id = it.qty := by
  intro cart
  induction cart with
  | nil => intro _ it hit; cases hit
  | cons hd t ih =>
    intro hnd it hit
    rw [List.map_cons] at hnd
    have hnd' := List.nodup_cons.mp hnd
    rcases List.mem_cons.mp hit with rfl | hmem
    · rw [cartQty_cons, if_pos (beq_iff_eq.mpr rfl)]
      have hzero : cartQty t it.id = 0 := by
        apply cartQty_eq_zero
        intro jt hjt heq
        exact hnd'.1 (heq ▸ List.mem_map_of_mem (fun kt => kt.id) hjt)
      rw [hzero, add_zero]
    · have hne : ¬ (it.id == hd.id) = true := by
        intro hb
        exact hnd'.1 ((eq_of_beq hb) ▸ List.mem_map_of_mem (fun kt => kt.id) hmem)
      rw [cartQty_cons, if_neg hne, ih hnd'.2 it hmem, zero_add]

theorem subtotalA_eval : subtotal_calc cartA = 5 := by
  have h1 : pymul (3/2) ((2 : ℤ) : ℚ) = 3 := by
    rw [show (((2 : ℤ)) : ℚ) = 2 by norm_num]
    exact pymul_32_2
  have h2 : pymul 2 ((1 : ℤ) : ℚ) = 2 := by
    rw [show (((1 : ℤ)) : ℚ) = 1 by norm_num]
    exact pymul_2_1
  simp only [subtotal_calc, cartA, List.foldl_cons, List.foldl_nil]
  rw [h1, h2, pyadd_0_3, pyadd_3_2]

theorem discA_eval : raw_discount cartA (.percentOf 10) = 1/2 := by
  rw [raw_discount, subtotalA_eval, parse_discount]
  rw [if_neg (by norm_num), pydiv_10_100, pymul_5_tenth]

theorem taxA_eval :
    raw_tax cartA (.percentOf 10) 5 = 8106479329266893 / 36028797018963968 := by
  rw [raw_tax, subtotalA_eval, discA_eval, tax_calc, pysub_5_half, pydiv_5_100,
    pymul_92_005]

theorem totalA_eval :
    raw_total cartA (.percentOf 10) 5 = 5319877059831398 / 1125899906842624 := by
  rw [raw_total, subtotalA_eval, discA_eval, taxA_eval, total_calc, pysub_5_half,
    pyadd_92_tax]

theorem rawW_subtotal : subtotal_calc cartW = 2 := by
  simp only [subtotal_calc, cartW, List.foldl_cons, List.foldl_nil, Int.cast_one]
  rw [pymul_2_1, pyadd_0_2]

theorem rawW_discount : raw_discount cartW .empty = 0 := rfl

theorem rawW_tax : raw_tax cartW .empty 0 = 0 := by
  rw [raw_tax, rawW_subtotal, rawW_discount, tax_calc, pysub_2_0, pydiv_0_100, pymul_2_0]

theorem rawW_total : raw_total cartW .empty 0 = 2 := by
  rw [raw_total, rawW_subtotal, rawW_discount, rawW_tax, total_calc, pysub_2_0, pyadd_2_0]

theorem save_eval_W :
    save_sale dbW cartW 2 0 0 2 5 "Cash" "Admin" none "R1" = .ok (dbWout, 1, "R1") := by
  have hcs : checkStock dbW cartW = none := by
    simp [checkStock, findProduct, dbW, cartW, List.find?]
  simp only [save_sale, hcs]
  rw [pysub_5_2]
  simp only [dbW, cartW, List.any_nil, Bool.false_eq_true, if_false, List.foldl_cons,
    List.foldl_nil, applyItem, List.map_cons, List.map_nil]
  simp only [dbWout, mkSaleRow, mkItemRow, Int.cast_one, pymul_2_1]
  norm_num

theorem flow_eval_W :
    checkout_flow dbW cartW .empty 0 5 "Cash" "Admin" none "R1"
      = .completed dbWout 1 "R1" := by
  have he : cartW.isEmpty = false := rfl
  rw [checkout_flow, he]
  simp only [Bool.false_eq_true, if_false]
  rw [rawW_total, py_round2_two, if_neg (by norm_num), rawW_subtotal, rawW_discount,
    rawW_tax, py_round2_two, py_round2_zero, save_eval_W]

theorem save_eval_A :
    save_sale dbSample cartA 5 (1/2) (8286623314361713 / 36028797018963968)
      (5314247560297185 / 1125899906842624) 10 "Cash" "Admin" none "R900"
      = .ok (dbA, 1, "R900") := by
  have hcs : checkStock dbSample cartA = none := by
    simp [checkStock, findProduct, dbSample, cartA, List.find?]
  have hm1 : pymul (3/2) (((2 : ℤ)) : ℚ) = 3 := by
    rw [show (((2 : ℤ)) : ℚ) = 2 by norm_num]
    exact pymul_32_2
  have hm2 : pymul 2 (((1 : ℤ)) : ℚ) = 2 := by
    rw [show (((1 : ℤ)) : ℚ) = 1 by norm_num]
    exact pymul_2_1
  simp only [save_sale, hcs]
  rw [pysub_10_totA]
  simp only [dbSample, cartA, List.any_nil, Bool.false_eq_true, if_false, List.foldl_cons,
    List.foldl_nil, applyItem, List.map_cons, List.map_nil]
  simp only [dbA, saleA, mkSaleRow, mkItemRow, hm1, hm2]
  norm_num

theorem flow_eval_A :
    checkout_flow dbSample cartA (.percentOf 10) 5 10 "Cash" "Admin" none "R900"
      = .completed dbA 1 "R900" := by
  have he : cartA.isEmpty = false := rfl
  rw [checkout_flow, he]
  simp only [Bool.false_eq_true, if_false]
  rw [totalA_eval, py_round2_totA,
    if_neg (by norm_num : ¬ (10 : ℚ) < 5314247560297185 / 1125899906842624),
    subtotalA_eval, discA_eval, taxA_eval, py_round2_five, py_round2_half, py_round2_taxA,
    save_eval_A]

/-- Claim C1 (amended): provided every cart line references an existing
product row, a cart containing a line whose quantity exceeds that product's
currently persisted stock makes `save_sale` fail with the insufficient-stock
error carrying that line's snapshotted product name, the available stock and
the requested quantity (the first such line in cart order), and the database
— sales, sale_items and every product's stock — is left unchanged, the
error being raised before any write.  (The embedding returns errors without
a database value: the caller's database is untouched, and the in-memory cart
is never written by `save_sale`.) -/
theorem c1_theorem (db : DB) (cart : List CartItem) (s d t tot paid : ℚ)
    (pm cn : String) (cid : Option ℕ) (r : String)
    (hfound : ∀ it ∈ cart, (findProduct db it.id).isSome)
    (hover : ∃ it ∈ cart, ∃ p, findProduct db it.id = some p ∧ p.stock < it.qty) :
    ∃ it ∈ cart, ∃ p, findProduct db it.id = some p ∧ p.stock < it.qty ∧
      save_sale db cart s d t tot paid pm cn cid r
        = .error (.insufficientStock it.name p.stock it.qty) := by
  rcases checkStock_first_over db cart hfound hover with ⟨it, hmem, p, h1, h2, h3⟩
  exact ⟨it, hmem, p, h1, h2, save_sale_error_of_checkStock h3⟩

/-- Witness for C1, Scenario B: stock 3, requested 5. -/
theorem c1_witness :
    ∃ it ∈ cartB, ∃ p, findProduct db3 it.id = some p ∧ p.stock < it.qty ∧
      save_sale db3 cartB 0 0 0 0 0 "Cash" "Admin" none "R1"
        = .error (.insufficientStock it.name p.stock it.qty) := by
  refine c1_theorem db3 cartB 0 0 0 0 0 "Cash" "Admin" none "R1" ?_ ?_
  · intro it hit
    rcases List.mem_singleton.mp hit with rfl
    rfl
  · exact ⟨{ id := 1, name := "Water", price := 3/2, qty := 5 },
      List.mem_singleton.mpr rfl,
      { id := 1, name := "Water", price := 3/2, stock := 3 }, rfl, by norm_num⟩

/-- Counterexample to C1 as stated: `cartMix` contains a line (qty 5 against
stock 3) exceeding persisted stock, yet `save_sale` raises the product-not-
found error for the earlier line referencing a missing product, not an
insufficient-stock error. -/
theorem c1_counterexample :
    (∃ it ∈ cartMix, ∃ p, findProduct db3 it.id = some p ∧ p.stock < it.qty) ∧
    save_sale db3 cartMix 0 0 0 0 0 "Cash" "Admin" none "R1"
      = .error (.notFound "Ghost") ∧
    SaleError.notFound "Ghost" ≠ SaleError.insufficientStock "Water" 3 5 := by
  refine ⟨⟨{ id := 1, name := "Water", price := 3/2, qty := 5 },
    List.mem_cons_of_mem _ (List.mem_singleton.mpr rfl),
    { id := 1, name := "Water", price := 3/2, stock := 3 }, rfl, by norm_num⟩, ?_, by simp⟩
  exact save_sale_error_of_checkStock (by simp [checkStock, findProduct, db3, cartMix,
    List.find?])

/-- Claim C2: a successful commit appends exactly one sale_items row per cart
line (with the line's quantity, snapshotted unit price, and float line total
`unit_price * quantity`), replaces the products table by the per-product
decremented one, and the total stock decrement equals the total committed
quantity. -/
theorem c2_theorem (db : DB) (cart : List CartItem) (s d t tot paid : ℚ)
    (pm cn : String) (cid : Option ℕ) (r : String) (db' : DB) (sid : ℕ) (rc : String)
    (hnd : (db.products.map (fun p => p.id)).Nodup)
    (h : save_sale db cart s d t tot paid pm cn cid r = .ok (db', sid, rc)) :
    db'.sale_items = db.sale_items ++ cart.map (mkItemRow sid) ∧
    db'.sale_items.length = db.sale_items.length + cart.length ∧
    (∀ row ∈ cart.map (mkItemRow sid),
      row.total_price = pymul row.unit_price ((row.quantity : ℚ))) ∧
    db'.products = decrementAll cart db.products ∧
    stockSum db.products - stockSum db'.products = qtySum cart := by
  obtain ⟨hcs, hany, hsid, hrc, hdb⟩ := save_sale_ok_inv h
  subst hsid
  have hitems : db'.sale_items = db.sale_items ++ cart.map (mkItemRow db.next_sale_id) := by
    rw [hdb]
  have hprod : db'.products = decrementAll cart db.products := by
    rw [hdb]
  have hfound : ∀ it ∈ cart, ∃ p ∈ db.products, p.id = it.id := by
    intro it hit
    rcases (checkStock_none_iff db cart).mp hcs it hit with ⟨p, hfp, _⟩
    rcases findProduct_mem hfp with ⟨hmem, hid⟩
    exact ⟨p, hmem, hid⟩
  refine ⟨hitems, by rw [hitems]; simp, ?_, hprod, ?_⟩
  · intro row hrow
    rcases List.mem_map.mp hrow with ⟨it, _, rfl⟩
    rfl
  · rw [hprod]
    have hsum : stockSum (decrementAll cart db.products)
        = stockSum db.products - (db.products.map (fun p => cartQty cart p.id)).sum := by
      rw [stockSum, decrementAll, List.map_map]
      rw [show ((fun p : Product => p.stock) ∘ fun p : Product =>
          { p with stock := p.stock - cartQty cart p.id })
          = fun p : Product => p.stock - cartQty cart p.id from rfl]
      rw [sum_map_sub_split]
      rfl
    rw [hsum, sum_cartQty cart db.products hnd hfound]
    ring

/-- Witness for C2: the happy-path commit on `dbW`. -/
theorem c2_witness :
    dbWout.sale_items = dbW.sale_items ++ cartW.map (mkItemRow 1) ∧
    dbWout.sale_items.length = dbW.sale_items.length + cartW.length ∧
    (∀ row ∈ cartW.map (mkItemRow 1),
      row.total_price = pymul row.unit_price ((row.quantity : ℚ))) ∧
    dbWout.products = decrementAll cartW dbW.products ∧
    stockSum dbW.products - stockSum dbWout.products = qtySum cartW :=
  c2_theorem dbW cartW 2 0 0 2 5 "Cash" "Admin" none "R1" dbWout 1 "R1"
    (by simp [dbW]) save_eval_W

/-- Claim C3 (amended): for a binary64 subtotal that is non-negative, a
percentage discount never exceeds the subtotal (so for that shape
`discountAmount = min(subtotal, computed discount)` holds), and malformed,
empty or negative specifications yield 0 — but a non-negative flat discount
is returned in full, with no cap at the subtotal, so a flat discount larger
than the subtotal drives the total negative. -/
theorem c3_theorem (subtotal : ℚ) (hs : 0 ≤ subtotal) (hfix : roundD subtotal = subtotal) :
    (∀ p, parse_discount (.percentOf p) subtotal ≤ subtotal) ∧
    (∀ a, 0 ≤ a → parse_discount (.flatOf a) subtotal = a) ∧
    parse_discount .empty subtotal = 0 ∧
    parse_discount .malformed subtotal = 0 := by
  refine ⟨?_, ?_, rfl, rfl⟩
  · intro p
    rw [parse_discount]
    by_cases hp : p < 0 ∨ 100 < p
    · rw [if_pos hp]
      exact hs
    · rw [if_neg hp]
      push_neg at hp
      have hdiv_le : pydiv p 100 ≤ 1 := by
        rw [pydiv]
        calc roundD (p / 100) ≤ roundD 1 :=
              roundD_mono ((div_le_one (by norm_num : (0:ℚ) < 100)).mpr hp.2)
          _ = 1 := roundD_one
      have hmul : subtotal * pydiv p 100 ≤ subtotal := mul_le_of_le_one_right hs hdiv_le
      calc pymul subtotal (pydiv p 100) = roundD (subtotal * pydiv p 100) := rfl
        _ ≤ roundD subtotal := roundD_mono hmul
        _ = subtotal := hfix
  · intro a ha
    rw [parse_discount, if_neg (not_lt.mpr ha)]

/-- Witness for C3 at the Scenario-A subtotal 5.00. -/
theorem c3_witness :
    (∀ p, parse_discount (.percentOf p) 5 ≤ 5) ∧
    (∀ a, 0 ≤ a → parse_discount (.flatOf a) 5 = a) ∧
    parse_discount .empty 5 = 0 ∧
    parse_discount .malformed 5 = 0 :=
  c3_theorem 5 (by norm_num) roundD_five

/-- Counterexample to C3 as stated: the flat discount `"10"` against
subtotal 5.00 is returned as 10, not `min(5, 10) = 5`, and the resulting
total (tax 0) is −5 < 0. -/
theorem c3_counterexample :
    parse_discount (.flatOf 10) 5 = 10 ∧
    min (5 : ℚ) (parse_discount (.flatOf 10) 5) = 5 ∧
    parse_discount (.flatOf 10) 5 ≠ min (5 : ℚ) (parse_discount (.flatOf 10) 5) ∧
    total_calc 5 (parse_discount (.flatOf 10) 5)
      (tax_calc 5 (parse_discount (.flatOf 10) 5) 0) < 0 := by
  have hd : parse_discount (.flatOf 10) 5 = 10 := by
    rw [parse_discount, if_neg (by norm_num)]
  have htax : tax_calc 5 (10 : ℚ) 0 = 0 := by
    rw [tax_calc, pysub_5_10, pydiv_0_100, pymul_neg5_0]
  refine ⟨hd, by rw [hd]; norm_num, by rw [hd]; norm_num, ?_⟩
  rw [hd, htax, total_calc, pysub_5_10, pyadd_neg5_0]
  norm_num

/-- Claim C4 (amended): every sale persisted by a completed checkout stores
the two-decimal roundings of the raw float subtotal, discount, tax and total
(so the stored total is `round(subtotal_raw − discount_raw + tax_raw, 2)`
computed from the unrounded components, not from the stored rounded ones),
and stores `change_amount` as the raw float difference `paid − total` with
no further rounding. -/
theorem c4_theorem (db : DB) (cart : List CartItem) (dtext : DiscountText)
    (taxPercent paid : ℚ) (pm cn : String) (cid : Option ℕ) (r : String)
    (db' : DB) (sid : ℕ) (rc : String)
    (h : checkout_flow db cart dtext taxPercent paid pm cn cid r = .completed db' sid rc) :
    db'.sales = db.sales ++ [mkSaleRow db.next_sale_id r cid
      (py_round2 (subtotal_calc cart)) (py_round2 (raw_discount cart dtext))
      (py_round2 (raw_tax cart dtext taxPercent))
      (py_round2 (raw_total cart dtext taxPercent)) paid
      (pysub paid (py_round2 (raw_total cart dtext taxPercent))) pm cn] := by
  unfold checkout_flow at h
  by_cases hcEmpty : cart.isEmpty = true
  · rw [if_pos hcEmpty] at h
    cases h
  · rw [if_neg hcEmpty] at h
    by_cases hpaid : paid < py_round2 (raw_total cart dtext taxPercent)
    · rw [if_pos hpaid] at h
      cases h
    · rw [if_neg hpaid] at h
      cases hss : save_sale db cart (py_round2 (subtotal_calc cart))
          (py_round2 (raw_discount cart dtext)) (py_round2 (raw_tax cart dtext taxPercent))
          (py_round2 (raw_total cart dtext taxPercent)) paid pm cn cid r with
      | error e =>
        rw [hss] at h
        cases h
      | ok res =>
        obtain ⟨db2, sid2, rc2⟩ := res
        rw [hss] at h
        cases h
        obtain ⟨hcs, hany, hsid, hrc, hdb⟩ := save_sale_ok_inv hss
        subst hrc
        rw [hdb]

/-- Witness for C4: the happy-path checkout on `dbW`. -/
theorem c4_witness :
    dbWout.sales = dbW.sales ++ [mkSaleRow dbW.next_sale_id "R1" none
      (py_round2 (subtotal_calc cartW)) (py_round2 (raw_discount cartW .empty))
      (py_round2 (raw_tax cartW .empty 0)) (py_round2 (raw_total cartW .empty 0)) 5
      (pysub 5 (py_round2 (raw_total cartW .empty 0))) "Cash" "Admin"] :=
  c4_theorem dbW cartW .empty 0 5 "Cash" "Admin" none "R1" dbWout 1 "R1" flow_eval_W

/-- Counterexample to C4 as stated: the Scenario-A checkout (paid 10)
completes, and its stored sale has `total` the double 4.72 while
`round(subtotal − discount + tax, 2)` recomputed from the stored values is
the double 4.73. -/
theorem c4_counterexample :
    checkout_flow dbSample cartA (.percentOf 10) 5 10 "Cash" "Admin" none "R900"
      = .completed dbA 1 "R900" ∧
    dbA.sales = [saleA] ∧
    saleA.total ≠ py_round2 (pyadd (pysub saleA.subtotal saleA.discount) saleA.tax) := by
  refine ⟨flow_eval_A, rfl, ?_⟩
  have h1 : saleA.subtotal = 5 := rfl
  have h2 : saleA.discount = 1/2 := rfl
  have h3 : saleA.tax = 8286623314361713 / 36028797018963968 := rfl
  have h4 : saleA.total = 5314247560297185 / 1125899906842624 := rfl
  rw [h1, h2, h3, h4, pysub_5_half, pyadd_92_taxstored, py_round2_recompA]
  norm_num

/-- Claim C5 (amended): `save_sale` itself performs no payment check (see the
counterexample); the `paid ≥ total` guard lives in the payment dialog, which
refuses to submit when `paid < total`, so a checkout that runs through the
dialog either stops at `insufficientPayment` with no persisted change, or
persists a sale whose `change_amount` is the float difference
`paid − total ≥ 0`. -/
theorem c5_theorem (db : DB) (cart : List CartItem) (dtext : DiscountText)
    (taxPercent paid : ℚ) (pm cn : String) (cid : Option ℕ) (r : String)
    (hne : cart ≠ []) :
    (paid < py_round2 (raw_total cart dtext taxPercent) →
      checkout_flow db cart dtext taxPercent paid pm cn cid r = .insufficientPayment) ∧
    (∀ db' sid rc, checkout_flow db cart dtext taxPercent paid pm cn cid r
        = .completed db' sid rc →
      ∃ sl, db'.sales = db.sales ++ [sl] ∧ sl.paid = paid ∧
        sl.total = py_round2 (raw_total cart dtext taxPercent) ∧
        sl.change_amount = pysub paid sl.total ∧ 0 ≤ sl.change_amount) := by
  have hcEmpty : cart.isEmpty = false := by
    cases cart with
    | nil => exact absurd rfl hne
    | cons a l => rfl
  constructor
  · intro hlt
    unfold checkout_flow
    rw [hcEmpty]
    simp only [Bool.false_eq_true, if_false]
    rw [if_pos hlt]
  · intro db' sid rc h
    unfold checkout_flow at h
    rw [hcEmpty] at h
    simp only [Bool.false_eq_true, if_false] at h
    by_cases hpaid : paid < py_round2 (raw_total cart dtext taxPercent)
    · rw [if_pos hpaid] at h
      cases h
    · rw [if_neg hpaid] at h
      cases hss : save_sale db cart (py_round2 (subtotal_calc cart))
          (py_round2 (raw_discount cart dtext)) (py_round2 (raw_tax cart dtext taxPercent))
          (py_round2 (raw_total cart dtext taxPercent)) paid pm cn cid r with
      | error e =>
        rw [hss] at h
        cases h
      | ok res =>
        obtain ⟨db2, sid2, rc2⟩ := res
        rw [hss] at h
        cases h
        obtain ⟨hcs, hany, hsid, hrc, hdb⟩ := save_sale_ok_inv hss
        subst hrc
        refine ⟨mkSaleRow db.next_sale_id rc cid (py_round2 (subtotal_calc cart))
          (py_round2 (raw_discount cart dtext)) (py_round2 (raw_tax cart dtext taxPercent))
          (py_round2 (raw_total cart dtext taxPercent)) paid
          (pysub paid (py_round2 (raw_total cart dtext taxPercent))) pm cn,
          by rw [hdb], rfl, rfl, rfl, ?_⟩
        exact roundD_nonneg (sub_nonneg.mpr (not_lt.mp hpaid))

/-- Witness for C5: the happy-path checkout on `dbW`, paid 5 against total
2.00, stores change 3.00 ≥ 0. -/
theorem c5_witness :
    ∃ sl, dbWout.sales = dbW.sales ++ [sl] ∧ sl.paid = 5 ∧
      sl.total = py_round2 (raw_total cartW .empty 0) ∧
      sl.change_amount = pysub 5 sl.total ∧ 0 ≤ sl.change_amount :=
  (c5_theorem dbW cartW .empty 0 5 "Cash" "Admin" none "R1" (by simp [cartW])).2
    dbWout 1 "R1" flow_eval_W

/-- Counterexample to C5 as stated: `save_sale` called directly with paid 0
against total 2 succeeds and stores a negative `change_amount` — the engine
verifies nothing about payment; only the dialog does. -/
theorem c5_counterexample :
    save_sale dbW cartW 2 0 0 2 0 "Cash" "Admin" none "R2"
      = .ok ({ products := [{ id := 1, name := "Widget", price := 2, stock := 4 }],
               sales := [mkSaleRow 1 "R2" none 2 0 0 2 0 (-2) "Cash" "Admin"],
               sale_items := [{ sale_id := 1, product_id := 1, quantity := 1,
                                unit_price := 2, total_price := 2 }],
               next_sale_id := 2 }, 1, "R2") ∧
    (mkSaleRow 1 "R2" none 2 0 0 2 0 (-2) "Cash" "Admin").change_amount < 0 := by
  have hcs : checkStock dbW cartW = none := by
    simp [checkStock, findProduct, dbW, cartW, List.find?]
  have hchange : pysub 0 2 = -2 := by
    rw [pysub, show (0 : ℚ) - 2 = -(2 : ℚ) by norm_num, roundD_neg, roundD_two]
  constructor
  · simp only [save_sale, hcs]
    rw [hchange]
    simp only [dbW, cartW, List.any_nil, Bool.false_eq_true, if_false, List.foldl_cons,
      List.foldl_nil, applyItem, List.map_cons, List.map_nil]
    simp only [mkSaleRow, mkItemRow, Int.cast_one, pymul_2_1]
    norm_num
  · rw [mkSaleRow]
    norm_num

/-- Claim C6 (amended): the empty-cart rejection lives in the UI —
`checkout` refuses an empty cart before any engine call — while `save_sale`
itself has no empty-cart check: called with an empty cart and a fresh
receipt it succeeds, inserting one sales row with no sale_items rows and no
stock change. -/
theorem c6_theorem (db : DB) (s d t tot paid taxPercent : ℚ) (dtext : DiscountText)
    (pm cn : String) (cid : Option ℕ) (r : String)
    (hr : ∀ sl ∈ db.sales, sl.receipt_number ≠ r) :
    checkout_flow db [] dtext taxPercent paid pm cn cid r = .emptyCart ∧
    save_sale db [] s d t tot paid pm cn cid r
      = .ok ({ db with sales := db.sales ++ [mkSaleRow db.next_sale_id r cid s d t tot paid
          (pysub paid tot) pm cn], next_sale_id := db.next_sale_id + 1 },
        db.next_sale_id, r) := by
  constructor
  · rfl
  · have hany : (db.sales.any fun sl => sl.receipt_number == r) = false := by
      rw [List.any_eq_false]
      intro sl hsl
      simpa using hr sl hsl
    simp only [save_sale, checkStock, hany, Bool.false_eq_true, if_false, List.foldl_nil,
      List.map_nil, List.append_nil]

/-- Witness for C6 on `dbW` with a fresh receipt. -/
theorem c6_witness :
    checkout_flow dbW [] .empty 0 0 "Cash" "Admin" none "R9" = .emptyCart ∧
    save_sale dbW [] 0 0 0 0 0 "Cash" "Admin" none "R9"
      = .ok ({ dbW with sales := dbW.sales ++ [mkSaleRow dbW.next_sale_id "R9" none 0 0 0 0 0
          (pysub 0 0) "Cash" "Admin"], next_sale_id := dbW.next_sale_id + 1 },
        dbW.next_sale_id, "R9") :=
  c6_theorem dbW 0 0 0 0 0 0 .empty "Cash" "Admin" none "R9" (by simp [dbW])

/-- Counterexample to C6 as stated: `save_sale` on an empty cart does not
fail with any error — there is no `EmptyCartError` — and it persists a Sale
row. -/
theorem c6_counterexample :
    save_sale dbW [] 0 0 0 0 0 "Cash" "Admin" none "R9"
      = .ok ({ products := [{ id := 1, name := "Widget", price := 2, stock := 5 }],
               sales := [mkSaleRow 1 "R9" none 0 0 0 0 0 0 "Cash" "Admin"],
               sale_items := [], next_sale_id := 2 }, 1, "R9") := by
  simp only [save_sale, checkStock]
  rw [pysub_0_0]
  simp only [dbW, List.any_nil, Bool.false_eq_true, if_false, List.foldl_nil,
    List.map_nil, List.append_nil]
  norm_num

/-- Claim C7 (amended): `save_sale` generates its receipt number once, before
the transaction; when that number collides with an existing sale's receipt
number (the `receipt_number TEXT UNIQUE` constraint) the commit fails with
the wrapped database error on that first attempt — there is no
regeneration, no bounded retry, and no `ReceiptGenerationError`. -/
theorem c7_theorem (db : DB) (cart : List CartItem) (s d t tot paid : ℚ)
    (pm cn : String) (cid : Option ℕ) (r : String)
    (hcs : checkStock db cart = none)
    (hcol : ∃ sl ∈ db.sales, sl.receipt_number = r) :
    save_sale db cart s d t tot paid pm cn cid r = .error .databaseError :=
  save_sale_collision hcs hcol

/-- Witness for C7: committing against `dbR` with the already-used receipt
number `R11111`. -/
theorem c7_witness :
    save_sale dbR cartW 2 0 0 2 5 "Cash" "Admin" none "R11111"
      = .error .databaseError := by
  refine c7_theorem dbR cartW 2 0 0 2 5 "Cash" "Admin" none "R11111" ?_ ?_
  · simp [checkStock, findProduct, dbR, cartW, List.find?]
  · exact ⟨mkSaleRow 1 "R11111" none 0 0 0 0 0 0 "Cash" "Admin",
      List.mem_singleton.mpr rfl, rfl⟩

/-- Counterexample to C7 as stated: a receipt collision is surfaced as a
failure on the first attempt.  `save_sale` builds its receipt number once
(src/pos.py lines 545-548, before the transaction, with no loop), so the
commit with a stock-valid cart and the colliding receipt `R11111` returns
the wrapped database error — it is not retried with a regenerated number,
and no `ReceiptGenerationError` exists anywhere in the program. -/
theorem c7_counterexample :
    save_sale dbR cartW 2 0 0 2 5 "Cash" "Admin" none "R11111"
      = .error .databaseError ∧
    Except.error (ε := SaleError) (α := DB × ℕ × String) .databaseError
      ≠ .ok ({ products := [{ id := 1, name := "Widget", price := 2, stock := 4 }],
               sales := dbR.sales ++ [mkSaleRow 2 "R11111" none 2 0 0 2 5 3 "Cash" "Admin"],
               sale_items := [{ sale_id := 2, product_id := 1, quantity := 1,
                                unit_price := 2, total_price := 2 }],
               next_sale_id := 3 }, 2, "R11111") := by
  constructor
  · have hcs : checkStock dbR cartW = none := by
      simp [checkStock, findProduct, dbR, cartW, List.find?]
    have hany : (dbR.sales.any fun sl => sl.receipt_number == "R11111") = true := by
      simp [dbR, mkSaleRow]
    simp only [save_sale, hcs]
    rw [if_pos hany]
  · simp

/-- Claim C8 (amended): for carts whose lines reference pairwise-distinct
products, a successful commit preserves the non-negative-stock invariant:
if every product's stock was ≥ 0 before, every product's stock is ≥ 0
after.  (The restriction to distinct lines is forced by the counterexample:
the stock check compares each line against the full persisted stock, not
against the cumulative demand, so duplicate lines for one product can drive
its stock negative.  The UI's `add_to_cart` merges duplicate lines, so such
carts do not arise from the shipped UI.) -/
theorem c8_theorem (db : DB) (cart : List CartItem) (s d t tot paid : ℚ)
    (pm cn : String) (cid : Option ℕ) (r : String) (db' : DB) (sid : ℕ) (rc : String)
    (hndp : (db.products.map (fun p => p.id)).Nodup)
    (hndc : (cart.map (fun it => it.id)).Nodup)
    (hpos : ∀ p ∈ db.products, 0 ≤ p.stock)
    (h : save_sale db cart s d t tot paid pm cn cid r = .ok (db', sid, rc)) :
    ∀ p' ∈ db'.products, 0 ≤ p'.stock := by
  obtain ⟨hcs, -, -, -, hdb⟩ := save_sale_ok_inv h
  intro p' hp'
  rw [hdb] at hp'
  simp only [decrementAll] at hp'
  rcases List.mem_map.mp hp' with ⟨p, hp, rfl⟩
  simp only []
  by_cases hex : ∃ it ∈ cart, it.id = p.id
  · rcases hex with ⟨it, hit, hid⟩
    have hq : cartQty cart p.id = it.qty := by
      rw [← hid]
      exact cartQty_of_nodup cart hndc it hit
    rcases (checkStock_none_iff db cart).mp hcs it hit with ⟨q, hfq, hle⟩
    have hfp : findProduct db it.id = some p := by
      rw [findProduct, hid]
      exact find?_id_self p db.products hndp hp
    rw [hfq] at hfp
    injection hfp with hqp
    subst hqp
    rw [hq]
    omega
  · push_neg at hex
    have hzero : cartQty cart p.id = 0 := by
      apply cartQty_eq_zero
      intro it hit he
      exact hex it hit he.symm
    rw [hzero]
    have := hpos p hp
    omega

/-- Witness for C8: after the happy-path commit on `dbW`, the decremented
product still has non-negative stock. -/
theorem c8_witness :
    0 ≤ ({ id := 1, name := "Widget", price := 2, stock := 4 } : Product).stock :=
  c8_theorem dbW cartW 2 0 0 2 5 "Cash" "Admin" none "R1" dbWout 1 "R1"
    (by simp [dbW]) (by simp [cartW]) (by
      intro p hp
      simp only [dbW] at hp
      rcases List.mem_singleton.mp hp with rfl
      norm_num) save_eval_W
    { id := 1, name := "Widget", price := 2, stock := 4 }
    (by simp [dbWout])

/-- Counterexample to C8 as stated: the cart with two lines of 2 against
stock 3 for the same product passes the per-line stock check, the commit
succeeds, and the product's stock ends at −1 < 0. -/
theorem c8_counterexample :
    save_sale db3 cartDup 0 0 0 0 0 "Cash" "Admin" none "R1"
      = .ok ({ products := [{ id := 1, name := "Water", price := 3/2, stock := -1 }],
               sales := [mkSaleRow 1 "R1" none 0 0 0 0 0 0 "Cash" "Admin"],
               sale_items := [mkItemRow 1 { id := 1, name := "Water", price := 3/2, qty := 2 },
                 mkItemRow 1 { id := 1, name := "Water", price := 3/2, qty := 2 }],
               next_sale_id := 2 }, 1, "R1") ∧
    ({ id := 1, name := "Water", price := 3/2, stock := -1 } : Product).stock < 0 := by
  have hcs : checkStock db3 cartDup = none := by
    simp [checkStock, findProduct, db3, cartDup, List.find?]
  constructor
  · simp only [save_sale, hcs]
    rw [pysub_0_0]
    simp only [db3, cartDup, List.any_nil, Bool.false_eq_true, if_false, List.foldl_cons,
      List.foldl_nil, applyItem, List.map_cons, List.map_nil]
    simp only [mkSaleRow]
    norm_num
  · norm_num

/-- Claim C9 (amended): for the Scenario-A cart with discount `"10%"` and
tax 5%, the displayed/persisted two-decimal values are subtotal 5.00,
discount 0.50, tax 0.23 — and total 4.72, not 4.73: the float total
`4.5 + 4.5*0.05` evaluates to just below 4.725, which rounds down; the
persisted total is the double nearest 4.72. -/
theorem c9_theorem :
    display2 (subtotal_calc cartA) = 500 ∧
    display2 (raw_discount cartA (.percentOf 10)) = 50 ∧
    display2 (raw_tax cartA (.percentOf 10) 5) = 23 ∧
    display2 (raw_total cartA (.percentOf 10) 5) = 472 ∧
    py_round2 (raw_total cartA (.percentOf 10) 5)
      = 5314247560297185 / 1125899906842624 := by
  refine ⟨?_, ?_, ?_, ?_, ?_⟩
  · rw [subtotalA_eval, display2_five]
  · rw [discA_eval, display2_half]
  · rw [taxA_eval, display2_taxA]
  · rw [totalA_eval, display2_totA]
  · rw [totalA_eval, py_round2_totA]

/-- Counterexample to C9 as stated: the Scenario-A total does not display or
persist as 4.73 — its two-decimal rendering is 472 cents, not 473. -/
theorem c9_counterexample :
    display2 (raw_total cartA (.percentOf 10) 5) ≠ 473 := by
  rw [totalA_eval, display2_totA]
  norm_num

/-- Claim C10 (amended): if any cart line references a product id absent
from the products table, `save_sale` always fails before any write (the
check loop precedes every insert), leaving all tables unchanged; the error
is the not-found error carrying the missing line's snapshotted name,
provided every earlier line passes its own lookup and stock check — an
earlier offending line's error is raised instead otherwise. -/
theorem c10_theorem (db : DB) (pre post : List CartItem) (it : CartItem)
    (s d t tot paid : ℚ) (pm cn : String) (cid : Option ℕ) (r : String)
    (hmiss : findProduct db it.id = none)
    (hpre : ∀ jt ∈ pre, ∃ p, findProduct db jt.id = some p ∧ jt.qty ≤ p.stock) :
    save_sale db (pre ++ it :: post) s d t tot paid pm cn cid r
      = .error (.notFound it.name) :=
  save_sale_error_of_checkStock (checkStock_missing_after_ok db it post pre hpre hmiss)

/-- Witness for C10: a cart whose first line is in stock and whose second
line references the deleted product id 2. -/
theorem c10_witness :
    save_sale db3 ([{ id := 1, name := "Water", price := 3/2, qty := 2 }] ++
        { id := 2, name := "Ghost", price := 1, qty := 1 } :: []) 0 0 0 0 0
        "Cash" "Admin" none "R1"
      = .error (.notFound "Ghost") := by
  refine c10_theorem db3 [{ id := 1, name := "Water", price := 3/2, qty := 2 }] []
    { id := 2, name := "Ghost", price := 1, qty := 1 } 0 0 0 0 0 "Cash" "Admin" none "R1"
    rfl ?_
  intro jt hjt
  rcases List.mem_singleton.mp hjt with rfl
  exact ⟨{ id := 1, name := "Water", price := 3/2, stock := 3 }, rfl, by norm_num⟩

/-- Counterexample to C10 as stated: with the missing-product line second and
an over-requesting line first, the raised error names `Water`, not the
missing product `Ghost` — the error does not identify the missing product by
its snapshotted name. -/
theorem c10_counterexample :
    findProduct db3 2 = none ∧
    save_sale db3 cartMix2 0 0 0 0 0 "Cash" "Admin" none "R1"
      = .error (.insufficientStock "Water" 3 5) ∧
    SaleError.insufficientStock "Water" 3 5 ≠ SaleError.notFound "Ghost" := by
  refine ⟨rfl, ?_, by simp⟩
  exact save_sale_error_of_checkStock (by simp [checkStock, findProduct, db3, cartMix2,
    List.find?])
